import Mathlib

/-!
Shallow embedding of the kinobot palette module (`src/kinobot/palette.py`):
color extraction helpers, the color cleaner and the two palette composers.

Modelling conventions:
* Python `float` arithmetic is modelled by exact rationals (`ℚ`); the float
  literals `0.015`, `2.1`, `5.5`, `0.99`, `0.95`, `0.2`, `0.0065` become the
  corresponding rationals.  Python `int(...)` on a float truncates toward
  zero, modelled by `pyInt`.
* A PIL image is modelled by its integer dimensions together with a total
  pixel accessor; `Image.new` raises `ValueError` on a negative size, which
  the embedding models with `Except`.  `Image.paste` crops the pasted image
  to the canvas, so it never fails.
* `kinobot.exceptions.NotEnoughColors` (defined outside the embedded file)
  is modelled as one constructor of the error type `PErr`.
* The extraction functions `get_colors` / `get_colors_alt` call external
  libraries (wand, colorthief); the composers are therefore parametrised by
  the color list (or, for the modern composer, by the outcome of the
  extraction call, which the source wraps in `try/except Exception`).
-/

set_option autoImplicit false

namespace Kinobot

/-- An RGB color: a Python 3-tuple of channel ints. -/
structure Color where
  r : Int
  g : Int
  b : Int
deriving DecidableEq, Repr

/-- Default color used to totalise list indexing (indices are always in
range where it is used). -/
def defaultColor : Color := ⟨0, 0, 0⟩

/-- The PIL named color "white". -/
def white : Color := ⟨255, 255, 255⟩

/-- Python exceptions that the embedded code can raise. -/
inductive PErr where
  /-- a `TypeError` -/
  | typeError
  /-- a `ValueError` (e.g. `Image.new` with a negative size) -/
  | valueError
  /-- the exception `kinobot.exceptions.NotEnoughColors` -/
  | notEnoughColors
deriving DecidableEq, Repr

/-- Python `int(...)` applied to a float: truncation toward zero.  A
rational is stored in lowest terms with positive denominator, so this is
the truncating (T-)division of numerator by denominator. -/
def pyInt (q : ℚ) : Int :=
  q.num.tdiv (q.den : Int)

/-- A PIL image: integer dimensions plus a pixel accessor.  Only the
dimensions and the provenance of pixels matter to the embedded code. -/
structure Img where
  width : Int
  height : Int
  pix : Int → Int → Color

/-- Model of `PIL.Image.new(mode, size, fill)`: raises `ValueError` when a dimension
is negative, otherwise a constant-filled image. -/
def imageNew (size : Int × Int) (fill : Color) : Except PErr Img :=
  if size.1 < 0 ∨ size.2 < 0 then .error .valueError
  else .ok ⟨size.1, size.2, fun _ _ => fill⟩

/-- Model of `base.paste(src, pos)`: overwrite the rectangle of `src` at `pos`,
cropped to the canvas of `base` (PIL pastes silently crop). -/
def Img.paste (base : Img) (src : Img) (pos : Int × Int) : Img :=
  ⟨base.width, base.height, fun x y =>
    if pos.1 ≤ x ∧ x < pos.1 + src.width ∧ pos.2 ≤ y ∧ y < pos.2 + src.height
    then src.pix (x - pos.1) (y - pos.2)
    else base.pix x y⟩

/-- Model of `im.resize(size)`: new dimensions, pixels sampled from the original
(nearest-neighbour model; no embedded claim inspects resampled pixels). -/
def Img.resize (im : Img) (size : Int × Int) : Except PErr Img :=
  if size.1 < 0 ∨ size.2 < 0 then .error .valueError
  else .ok ⟨size.1, size.2, fun x y =>
    im.pix (x * im.width / size.1) (y * im.height / size.2)⟩

/-- Model of `PIL.ImageOps.expand(im, border=(left, top, right, bottom), fill)`:
a new canvas grown by the four borders, with the original pasted at
`(left, top)`. -/
def expand (im : Img) (b4 : Int × Int × Int × Int) (fill : Color) :
    Except PErr Img :=
  match imageNew (im.width + b4.1 + b4.2.2.1, im.height + b4.2.1 + b4.2.2.2) fill with
  | .error e => .error e
  | .ok canvas => .ok (canvas.paste im (b4.1, b4.2.1))

/-- The channel loop of `clean_colors`: how many of the three channels of a
color exceed 160 (`for tup in colors[color]: if tup > 160: hits += 1`). -/
def whiteHits (c : Color) : Nat :=
  ([c.r, c.g, c.b].filter (fun v => 160 < v)).length

/-- The scan loop of `clean_colors` (`for color in range(5, len(colors))`):
starting from index `i` with `fuel` indices left, return the first index
whose `whiteHits` exceeds the tolerance, if any. -/
def scanCut (colors : List Color) (tolerancy : Int) : Nat → Nat → Option Nat
  | 0, _ => none
  | fuel + 1, i =>
    if tolerancy < (whiteHits (colors.getD i defaultColor) : Int) then some i
    else scanCut colors tolerancy fuel (i + 1)

/-- Embedding of `clean_colors(colors, tolerancy=2)`: remove "too white" colors.  Returns
`none` for the Python `return None` (fewer than 6 colors), otherwise the
prefix before the first too-white color at index ≥ 5, or the whole list. -/
def clean_colors (colors : List Color) (tolerancy : Int) : Option (List Color) :=
  if colors.length < 6 then none
  else
    match scanCut colors tolerancy (colors.length - 5) 5 with
    | some i => some (colors.take i)
    | none => some colors

/-- The hit counter of `get_most_diff`: how many saved colors differ from
`new` by more than 10 in the red channel. -/
def redDiffHits (saved_colors : List Color) (new : Color) : Nat :=
  (saved_colors.filter (fun saved => 10 < (new.r - saved.r).natAbs)).length

/-- Stable insertion into a list sorted by descending hit count: the new
element goes after every element with a strictly larger count and before
the rest, as a stable descending sort does. -/
def insertDesc (x : Color × Nat) : List (Color × Nat) → List (Color × Nat)
  | [] => [x]
  | y :: ys => if x.2 < y.2 then y :: insertDesc x ys else x :: y :: ys

/-- Stable sort by descending hit count, modelling the stable Python
`sorted(colors, key=itemgetter("hits"), reverse=True)`. -/
def sortDescHits : List (Color × Nat) → List (Color × Nat)
  | [] => []
  | x :: xs => insertDesc x (sortDescHits xs)

/-- Embedding of `get_most_diff(saved_colors, new_colors)`: pair each candidate with its
hit count, sort by descending hits (stably) and take the head (`[0]`; the
`IndexError` on an empty candidate list is modelled as `none`). -/
def get_most_diff (saved_colors new_colors : List Color) : Option (Color × Nat) :=
  (sortDescHits (new_colors.map (fun new => (new, redDiffHits saved_colors new)))).head?

/-- The slice width `slices = int(width / 10)` of `get_colors_alt`. -/
def alt_slice_width (width : Int) : Int :=
  pyInt ((width : ℚ) / 10)

/-- The crop box of slice `i` in `get_colors_alt`:
`box = (i * slices, 0, slices + (i * slices), height)`, i.e.
`(left, upper, right, lower)`: the slice holds columns `[left, right)`. -/
def alt_slice_box (width height : Int) (i : Nat) : Int × Int × Int × Int :=
  ((i : Int) * alt_slice_width width, 0,
    alt_slice_width width + (i : Int) * alt_slice_width width, height)

/-- The border thickness of `get_palette`:
`border = int(w * border)`, then if `float(w / h) > 2.1` the wide-image
adjustment `border = border - int((w / h) * 4)`. -/
def modern_border (w h : Int) (border : ℚ) : Int :=
  let b := pyInt ((w : ℚ) * border)
  if (21 : ℚ) / 10 < (w : ℚ) / (h : ℚ) then b - pyInt ((w : ℚ) / (h : ℚ) * 4)
  else b

/-- The width `new_w = int(w + (border * 2))` of `get_palette` (all operands ints). -/
def modern_new_w (w h : Int) (border : ℚ) : Int :=
  w + modern_border w h border * 2

/-- The nominal segment width `div_palette = int(new_w / len(palette))` of `get_palette`
(float division then truncation). -/
def modern_div (w h : Int) (border : ℚ) (n : Nat) : Int :=
  pyInt ((modern_new_w w h border : ℚ) / (n : ℚ))

/-- Width of segment `color` tiled by the loop of `get_palette` over a palette of
length `n`: the first segment and the middle segments get `div_palette`,
the last gets `div_palette + int((w - div_palette * (n - 1)) / 2)`. -/
def segment_width (n : Nat) (w div_palette : Int) (color : Nat) : Int :=
  if color = 0 then div_palette
  else if color = n - 1 then
    div_palette + pyInt (((w : ℚ) - (div_palette : ℚ) * ((n : Nat) - 1 : Nat)) / 2)
  else div_palette

/-- The strip-tiling loop of `get_palette`: paste one constant rectangle per
palette index onto `bg`, advancing `next_` by `div_palette` each time. -/
def stripLoop (palette : List Color) (w div_palette b2 : Int) :
    Img → Int → List Nat → Except PErr Img
  | bg, _, [] => .ok bg
  | bg, next_, color :: rest =>
    match imageNew (segment_width palette.length w div_palette color, b2)
        (palette.getD color defaultColor) with
    | .error e => .error e
    | .ok img_color =>
      stripLoop palette w div_palette b2
        (bg.paste img_color (if color = 0 then 0 else next_, 0))
        (next_ + div_palette) rest

/-- The `try: ... except TypeError: return image` pattern shared by both
composers: a `TypeError` thrown by the attempt yields the original image,
anything else (success or another exception) passes through. -/
def tryExceptTypeError (image : Img) (attempt : Except PErr Img) : Except PErr Img :=
  match attempt with
  | .error .typeError => .ok image
  | r => r

/-- The body of the `try` block of `get_palette`: tile the strip onto `bg`,
expand the original with the border on three sides filled with the first
palette color, and paste the strip at `(0, int(h))`. -/
def modernAttempt (image : Img) (palette : List Color)
    (w div_palette b2 : Int) (bg : Img) : Except PErr Img :=
  match stripLoop palette w div_palette b2 bg 0 (List.range palette.length) with
  | .error e => .error e
  | .ok strip =>
    match expand image (b2, b2, b2, 0) (palette.getD 0 defaultColor) with
    | .error e => .error e
    | .ok bordered => .ok (bordered.paste strip (0, image.height))

/-- Embedding of `get_palette(image, border=0.015, wand=True)`.  Here `colorsResult` is the
outcome of the extraction call `color_func(image)` (wrapped by the source
in `try/except Exception: return image`).  The strip background is created
before the `try`, whose `except` clause catches only `TypeError`. -/
def get_palette (image : Img) (colorsResult : Except PErr (List Color))
    (border : ℚ) : Except PErr Img :=
  match colorsResult with
  | .error _ => .ok image
  | .ok colors =>
    match clean_colors colors 2 with
    | none => .ok image
    | some palette =>
      if palette.isEmpty then .ok image
      else
        let w := image.width
        let h := image.height
        let b2 := modern_border w h border
        let new_w := modern_new_w w h border
        let div_palette := modern_div w h border palette.length
        match imageNew (new_w, b2) white with
        | .error e => .error e
        | .ok bg =>
          tryExceptTypeError image (modernAttempt image palette w div_palette b2 bg)

/-- The strip-tiling loop of `get_palette_legacy`: segment 0 has width
`int(div_palette * 0.95)` pasted at `(0, 0)`, later segments have width
`off_palette` pasted at `(next_, 0)`; every iteration advances `next_` by
`div_palette`. -/
def legacyLoop (palette : List Color) (div_palette off_palette height_palette : Int) :
    Img → Int → List Nat → Except PErr Img
  | bg, _, [] => .ok bg
  | bg, next_, color :: rest =>
    if color = 0 then
      match imageNew (pyInt ((div_palette : ℚ) * (19 / 20)), height_palette)
          (palette.getD color defaultColor) with
      | .error e => .error e
      | .ok img_color =>
        legacyLoop palette div_palette off_palette height_palette
          (bg.paste img_color (0, 0)) (next_ + div_palette) rest
    else
      match imageNew (off_palette, height_palette)
          (palette.getD color defaultColor) with
      | .error e => .error e
      | .ok img_color =>
        legacyLoop palette div_palette off_palette height_palette
          (bg.paste img_color (next_, 0)) (next_ + div_palette) rest

/-- The border of `get_palette_legacy`: `borders = int(width * 0.0065)`. -/
def legacy_borders (width : Int) : Int := pyInt ((width : ℚ) * (13 / 2000))

/-- The body of the `try` block of `get_palette_legacy`: tile the strip onto
`bg`, resize it to `(width, height_palette)`, expand original and strip
with white borders and paste the strip at `(borders, height)`. -/
def legacyAttempt (image : Img) (palette : List Color)
    (div_palette off_palette height_palette : Int) (bg : Img) : Except PErr Img :=
  match legacyLoop palette div_palette off_palette height_palette bg 0
      (List.range palette.length) with
  | .error e => .error e
  | .ok bg1 =>
    match bg1.resize (image.width, height_palette) with
    | .error e => .error e
    | .ok palette_img =>
      match expand image (legacy_borders image.width, legacy_borders image.width,
          legacy_borders image.width, height_palette + legacy_borders image.width)
          white with
      | .error e => .error e
      | .ok bordered_original =>
        match expand palette_img
            (0, legacy_borders image.width, 0, legacy_borders image.width) white with
        | .error e => .error e
        | .ok bordered_palette =>
          .ok (bordered_original.paste bordered_palette
            (legacy_borders image.width, image.height))

/-- Embedding of `get_palette_legacy(image, wand=True)`.  Here `palette` is the value returned
by the extraction call `color_func(image)`.  Fewer than 10 colors raise
`NotEnoughColors` before any geometry; the background is created before the
`try`, whose `except` clause catches only `TypeError`. -/
def get_palette_legacy (image : Img) (palette : List Color) : Except PErr Img :=
  let width := image.width
  let height := image.height
  if palette.length < 10 then .error .notEnoughColors
  else
    let divisor : ℚ := (height : ℚ) / (width : ℚ) * (11 / 2)
    let height_palette := pyInt ((height : ℚ) / divisor)
    let div_palette := pyInt ((width : ℚ) / (palette.length : ℚ) * (99 / 100))
    let off_palette := pyInt ((div_palette : ℚ) * (19 / 20))
    match imageNew (width - pyInt ((off_palette : ℚ) * (1 / 5)), height_palette)
        white with
    | .error e => .error e
    | .ok bg =>
      tryExceptTypeError image
        (legacyAttempt image palette div_palette off_palette height_palette bg)

/-- The floor of a rational, computed as the flooring (F-)division of
numerator by denominator. -/
def ratFloor (q : ℚ) : Int := q.num.fdiv (q.den : Int)

/-- Rounding to the nearest integer (halves round up).  This is a spec-side
definition, used only to state the claim that the composed width uses
`round`; the source itself truncates with `int(...)`. -/
def roundNearest (q : ℚ) : Int := ratFloor (q + 1 / 2)

/-- Sample palette: six dark colors (all channels 0), which the cleaner
keeps in full. -/
def sixDark : List Color := List.replicate 6 ⟨0, 0, 0⟩

/-- Sample palette: six dark colors followed by white, which the cleaner
cuts at index 6. -/
def sixDarkWhite : List Color := sixDark ++ [white]

/-- Sample 100×50 image (aspect ratio 2, below the wide-image threshold). -/
def sampleImg : Img := ⟨100, 50, fun _ _ => defaultColor⟩

/-- Sample 300×100 image (aspect ratio 3, above the wide-image threshold
2.1, so the border adjustment makes the border negative). -/
def wideImg : Img := ⟨300, 100, fun _ _ => defaultColor⟩

/-! ### Helper lemmas -/

theorem pyInt_nonneg {q : ℚ} (h : 0 ≤ q) : 0 ≤ pyInt q := by
  unfold pyInt
  exact Int.tdiv_nonneg (Rat.num_nonneg.mpr h) (by exact_mod_cast Nat.zero_le _)

theorem imageNew_error {sz : Int × Int} {fill : Color} {e : PErr}
    (h : imageNew sz fill = .error e) : e = .valueError := by
  unfold imageNew at h
  split at h
  · exact (Except.error.injEq _ _).mp h |>.symm
  · exact absurd h (by simp)

theorem imageNew_ok {sz : Int × Int} {fill : Color} {c : Img}
    (h : imageNew sz fill = .ok c) : c.width = sz.1 ∧ c.height = sz.2 := by
  unfold imageNew at h
  split at h
  · exact absurd h (by simp)
  · cases h
    exact ⟨rfl, rfl⟩

theorem imageNew_ok_of_nonneg (sz : Int × Int) (fill : Color)
    (h1 : 0 ≤ sz.1) (h2 : 0 ≤ sz.2) :
    ∃ c, imageNew sz fill = .ok c ∧ c.width = sz.1 ∧ c.height = sz.2 := by
  refine ⟨⟨sz.1, sz.2, fun _ _ => fill⟩, ?_, rfl, rfl⟩
  unfold imageNew
  rw [if_neg (by omega)]

theorem resize_error {im : Img} {sz : Int × Int} {e : PErr}
    (h : Img.resize im sz = .error e) : e = .valueError := by
  unfold Img.resize at h
  split at h
  · exact (Except.error.injEq _ _).mp h |>.symm
  · exact absurd h (by simp)

theorem expand_error {im : Img} {b4 : Int × Int × Int × Int} {fill : Color}
    {e : PErr} (h : expand im b4 fill = .error e) : e = .valueError := by
  unfold expand at h
  split at h
  · next e0 heq =>
    cases h
    exact imageNew_error heq
  · exact absurd h (by simp)

theorem expand_ok {im : Img} {b4 : Int × Int × Int × Int} {fill : Color}
    {c : Img} (h : expand im b4 fill = .ok c) :
    c.width = im.width + b4.1 + b4.2.2.1 ∧
    c.height = im.height + b4.2.1 + b4.2.2.2 := by
  unfold expand at h
  split at h
  · exact absurd h (by simp)
  · next canvas heq =>
    cases h
    have := imageNew_ok heq
    simpa [Img.paste] using this

theorem expand_ok_of_nonneg (im : Img) (b4 : Int × Int × Int × Int) (fill : Color)
    (h1 : 0 ≤ im.width + b4.1 + b4.2.2.1)
    (h2 : 0 ≤ im.height + b4.2.1 + b4.2.2.2) :
    ∃ c, expand im b4 fill = .ok c ∧
      c.width = im.width + b4.1 + b4.2.2.1 ∧
      c.height = im.height + b4.2.1 + b4.2.2.2 := by
  obtain ⟨c, hc, hw, hh⟩ := imageNew_ok_of_nonneg
    (im.width + b4.1 + b4.2.2.1, im.height + b4.2.1 + b4.2.2.2) fill h1 h2
  refine ⟨c.paste im (b4.1, b4.2.1), ?_, ?_, ?_⟩
  · unfold expand
    rw [hc]
  · simpa [Img.paste] using hw
  · simpa [Img.paste] using hh

theorem stripLoop_error {palette : List Color} {w div_palette b2 : Int} :
    ∀ {l : List Nat} {bg : Img} {next_ : Int} {e : PErr},
    stripLoop palette w div_palette b2 bg next_ l = .error e → e = .valueError := by
  intro l
  induction l with
  | nil => intro bg next_ e h; exact absurd h (by simp [stripLoop])
  | cons c rest ih =>
    intro bg next_ e h
    rw [stripLoop] at h
    split at h
    · next e0 heq =>
      cases h
      exact imageNew_error heq
    · exact ih h

theorem stripLoop_ok {palette : List Color} {w div_palette b2 : Int}
    (hb2 : 0 ≤ b2) :
    ∀ (l : List Nat) (bg : Img) (next_ : Int),
    (∀ c ∈ l, 0 ≤ segment_width palette.length w div_palette c) →
    ∃ s, stripLoop palette w div_palette b2 bg next_ l = .ok s := by
  intro l
  induction l with
  | nil => intro bg next_ _; exact ⟨bg, rfl⟩
  | cons c rest ih =>
    intro bg next_ hall
    obtain ⟨seg, hseg, -, -⟩ :=
      imageNew_ok_of_nonneg (segment_width palette.length w div_palette c, b2)
        (palette.getD c defaultColor) (hall c (by simp)) hb2
    obtain ⟨s, hs⟩ := ih (bg.paste seg (if c = 0 then 0 else next_, 0))
      (next_ + div_palette) (fun x hx => hall x (by simp [hx]))
    refine ⟨s, ?_⟩
    rw [stripLoop, hseg]
    exact hs

theorem legacyLoop_error {palette : List Color}
    {div_palette off_palette height_palette : Int} :
    ∀ {l : List Nat} {bg : Img} {next_ : Int} {e : PErr},
    legacyLoop palette div_palette off_palette height_palette bg next_ l = .error e →
    e = .valueError := by
  intro l
  induction l with
  | nil => intro bg next_ e h; exact absurd h (by simp [legacyLoop])
  | cons c rest ih =>
    intro bg next_ e h
    rw [legacyLoop] at h
    split at h
    · split at h
      · next e0 heq =>
        cases h
        exact imageNew_error heq
      · exact ih h
    · split at h
      · next e0 heq =>
        cases h
        exact imageNew_error heq
      · exact ih h

theorem modernAttempt_error {image : Img} {palette : List Color}
    {w div_palette b2 : Int} {bg : Img} {e : PErr}
    (h : modernAttempt image palette w div_palette b2 bg = .error e) :
    e = .valueError := by
  unfold modernAttempt at h
  split at h
  · next e0 heq =>
    cases h
    exact stripLoop_error heq
  · split at h
    · next e0 heq =>
      cases h
      exact expand_error heq
    · exact absurd h (by simp)

theorem legacyAttempt_error {image : Img} {palette : List Color}
    {div_palette off_palette height_palette : Int} {bg : Img} {e : PErr}
    (h : legacyAttempt image palette div_palette off_palette height_palette bg
        = .error e) : e = .valueError := by
  unfold legacyAttempt at h
  split at h
  · next e0 heq =>
    cases h
    exact legacyLoop_error heq
  · split at h
    · next e0 heq =>
      cases h
      exact resize_error heq
    · split at h
      · next e0 heq =>
        cases h
        exact expand_error heq
      · split at h
        · next e0 heq =>
          cases h
          exact expand_error heq
        · exact absurd h (by simp)

theorem tryExceptTypeError_of_ok {image out : Img} {attempt : Except PErr Img}
    (h : attempt = .ok out) : tryExceptTypeError image attempt = .ok out := by
  rw [h]
  rfl

theorem tryExceptTypeError_of_valueError {image : Img} {attempt : Except PErr Img}
    (h : attempt = .error .valueError) :
    tryExceptTypeError image attempt = .error .valueError := by
  rw [h]
  rfl

theorem clean_colors_short {colors : List Color} {t : Int}
    (h : colors.length < 6) : clean_colors colors t = none := by
  unfold clean_colors
  rw [if_pos h]

theorem scanCut_some_iff (colors : List Color) (t : Int) :
    ∀ (fuel i k : Nat),
    scanCut colors t fuel i = some k ↔
      i ≤ k ∧ k < i + fuel ∧
      t < (whiteHits (colors.getD k defaultColor) : Int) ∧
      ∀ j, i ≤ j → j < k → (whiteHits (colors.getD j defaultColor) : Int) ≤ t := by
  intro fuel
  induction fuel with
  | zero =>
    intro i k
    constructor
    · intro h
      exact absurd h (by simp [scanCut])
    · intro ⟨h1, h2, _, _⟩
      omega
  | succ fuel ih =>
    intro i k
    rw [scanCut]
    split
    · next hhit =>
      constructor
      · intro h
        have hk : k = i := (Option.some.injEq _ _).mp h |>.symm
        subst hk
        exact ⟨le_refl _, by omega, hhit, fun j hj1 hj2 => by omega⟩
      · intro ⟨h1, h2, h3, h4⟩
        have hk : k = i := by
          by_contra hne
          exact absurd hhit (not_lt.mpr (h4 i (le_refl _) (by omega)))
        rw [hk]
    · next hhit =>
      rw [ih (i + 1) k]
      constructor
      · intro ⟨h1, h2, h3, h4⟩
        refine ⟨by omega, by omega, h3, fun j hj1 hj2 => ?_⟩
        rcases Nat.eq_or_lt_of_le hj1 with hj | hj
        · rw [← hj]
          exact not_lt.mp hhit
        · exact h4 j (by omega) hj2
      · intro ⟨h1, h2, h3, h4⟩
        have hk : i ≠ k := by
          intro hik
          rw [← hik] at h3
          exact absurd h3 hhit
        exact ⟨by omega, by omega, h3, fun j hj1 hj2 => h4 j (by omega) hj2⟩

theorem scanCut_none_iff (colors : List Color) (t : Int) :
    ∀ (fuel i : Nat),
    scanCut colors t fuel i = none ↔
      ∀ j, i ≤ j → j < i + fuel →
        (whiteHits (colors.getD j defaultColor) : Int) ≤ t := by
  intro fuel
  induction fuel with
  | zero =>
    intro i
    simp [scanCut]
    omega
  | succ fuel ih =>
    intro i
    rw [scanCut]
    split
    · next hhit =>
      constructor
      · intro h
        exact absurd h (by simp)
      · intro hall
        exact absurd hhit (not_lt.mpr (hall i (le_refl _) (by omega)))
    · next hhit =>
      rw [ih (i + 1)]
      constructor
      · intro hall j hj1 hj2
        rcases Nat.eq_or_lt_of_le hj1 with hj | hj
        · rw [← hj]
          exact not_lt.mp hhit
        · exact hall j (by omega) (by omega)
      · intro hall j hj1 hj2
        exact hall j (by omega) (by omega)

theorem insertDesc_head (x : Color × Nat) (l : List (Color × Nat)) :
    (insertDesc x l).head? = some (match l.head? with
      | none => x
      | some y => if x.2 < y.2 then y else x) := by
  cases l with
  | nil => rfl
  | cons y ys =>
    rw [insertDesc]
    split
    · next hlt => simp [hlt]
    · next hlt => simp [hlt]

/-! ### Claim theorems -/

/-- C4 counterexample: for the empty palette (length 0 < 6), `clean_colors`
returns the `None` signal, not the original list, so `clean(c) == c` fails
as stated. -/
theorem C4_counterexample :
    clean_colors ([] : List Color) 2 = none ∧
    clean_colors ([] : List Color) 2 ≠ some ([] : List Color) := by decide

/-- C4 amended: for every color list with fewer than 6 elements,
`clean_colors` is a no-op in the sense that it returns the "cannot clean"
signal `None` (never a shortened list); the composer treats that signal as
"use the original image".  It does not return the list itself, and
re-applying it to the signal is a type error in the source, so the chain
`clean(clean(c)) == clean(c) == c` does not hold literally. -/
theorem C4_amended (colors : List Color) (t : Int) (h : colors.length < 6) :
    clean_colors colors t = none :=
  clean_colors_short h

/-- C4 witness: the amended theorem applied to the empty list. -/
theorem C4_witness :
    ([] : List Color).length < 6 ∧ clean_colors ([] : List Color) 2 = none :=
  ⟨by decide, C4_amended [] 2 (by decide)⟩

/-- C10: whenever `clean_colors` returns a list, the result is a prefix of
its input (colors are never reordered or modified) of length at least 5,
and the input had at least 6 colors. -/
theorem C10_clean_prefix (colors : List Color) (t : Int) (r : List Color)
    (h : clean_colors colors t = some r) :
    (∃ n, r = colors.take n) ∧ 5 ≤ r.length ∧ 6 ≤ colors.length := by
  unfold clean_colors at h
  split at h
  · exact absurd h (by simp)
  · next h6 =>
    split at h
    · next i hscan =>
      cases h
      have hp := (scanCut_some_iff colors t (colors.length - 5) 5 i).mp hscan
      refine ⟨⟨i, rfl⟩, ?_, by omega⟩
      rw [List.length_take]
      omega
    · cases h
      exact ⟨⟨colors.length, (List.take_length _).symm⟩, by omega, by omega⟩

/-- C10 witness: a seven-color palette ending in white is cut to its
six-color prefix. -/
theorem C10_witness :
    clean_colors sixDarkWhite 2 = some sixDark ∧
    ((∃ n, sixDark = sixDarkWhite.take n) ∧
      5 ≤ sixDark.length ∧ 6 ≤ sixDarkWhite.length) :=
  ⟨by decide, C10_clean_prefix sixDarkWhite 2 sixDark (by decide)⟩

/-- C7: for at least 6 colors, `clean_colors` scans from index 5 onward;
at the first index whose bright-channel count exceeds the tolerance it
returns the prefix strictly before that index; if there is none it returns
the full list; and the first 5 elements are always preserved. -/
theorem C7_clean_scan (colors : List Color) (t : Int) (h6 : 6 ≤ colors.length) :
    (∀ i0 : Nat, i0 < colors.length → 5 ≤ i0 →
      t < (whiteHits (colors.getD i0 defaultColor) : Int) →
      (∀ j : Nat, j < i0 → 5 ≤ j →
        (whiteHits (colors.getD j defaultColor) : Int) ≤ t) →
      clean_colors colors t = some (colors.take i0)) ∧
    ((∀ i : Nat, i < colors.length → 5 ≤ i →
      (whiteHits (colors.getD i defaultColor) : Int) ≤ t) →
      clean_colors colors t = some colors) ∧
    (∀ r : List Color, clean_colors colors t = some r →
      r.take 5 = colors.take 5) := by
  refine ⟨?_, ?_, ?_⟩
  · intro i0 hi0 h5 hhit hbefore
    have hs : scanCut colors t (colors.length - 5) 5 = some i0 :=
      (scanCut_some_iff colors t _ 5 i0).mpr
        ⟨h5, by omega, hhit, fun j hj1 hj2 => hbefore j hj2 hj1⟩
    unfold clean_colors
    rw [if_neg (by omega), hs]
  · intro hall
    have hs : scanCut colors t (colors.length - 5) 5 = none :=
      (scanCut_none_iff colors t _ 5).mpr (fun j hj1 hj2 => hall j (by omega) hj1)
    unfold clean_colors
    rw [if_neg (by omega), hs]
  · intro r h
    unfold clean_colors at h
    rw [if_neg (by omega)] at h
    split at h
    · next i hscan =>
      cases h
      have h5 := ((scanCut_some_iff colors t _ 5 i).mp hscan).1
      rw [List.take_take]
      congr 1
      omega
    · cases h
      rfl

/-- C7 witness: on six all-dark colors nothing exceeds the tolerance and
the cleaner returns the full list. -/
theorem C7_witness :
    6 ≤ sixDark.length ∧ clean_colors sixDark 2 = some sixDark :=
  ⟨by decide, (C7_clean_scan sixDark 2 (by decide)).2.1 (by decide)⟩

/-- C3: the legacy composer raises `NotEnoughColors` exactly when the
extracted palette has fewer than 10 colors; the error is returned to the
caller rather than swallowed (nothing catches it on that path). -/
theorem C3_legacy_insufficient (image : Img) (palette : List Color)
    (hw : 1 ≤ image.width) (hh : 1 ≤ image.height) :
    get_palette_legacy image palette = .error .notEnoughColors ↔
      palette.length < 10 := by
  constructor
  · intro h
    by_contra hlen
    simp only [get_palette_legacy] at h
    rw [if_neg hlen] at h
    split at h
    · next e heq =>
      have hn : e = PErr.notEnoughColors := (Except.error.injEq _ _).mp h
      rw [imageNew_error heq] at hn
      exact PErr.noConfusion hn
    · next bg heq =>
      rcases hA : legacyAttempt image palette
          (pyInt ((image.width : ℚ) / (palette.length : ℚ) * (99 / 100)))
          (pyInt ((pyInt ((image.width : ℚ) / (palette.length : ℚ) * (99 / 100)) : ℚ)
            * (19 / 20)))
          (pyInt ((image.height : ℚ) /
            ((image.height : ℚ) / (image.width : ℚ) * (11 / 2)))) bg with e | out
      · rw [legacyAttempt_error hA] at hA
        rw [tryExceptTypeError_of_valueError hA] at h
        exact absurd h (by simp)
      · rw [tryExceptTypeError_of_ok hA] at h
        exact absurd h (by simp)
  · intro h
    simp only [get_palette_legacy]
    rw [if_pos h]

/-- C3 witness: a three-color palette raises `NotEnoughColors` on the
legacy path. -/
theorem C3_witness :
    1 ≤ sampleImg.width ∧
    get_palette_legacy sampleImg (List.replicate 3 defaultColor)
      = .error .notEnoughColors :=
  ⟨by decide,
    (C3_legacy_insufficient sampleImg (List.replicate 3 defaultColor)
      (by decide) (by decide)).mpr (by decide)⟩

/-- C2 counterexample: with a single extracted color the legacy composer
does not fall back to the original image; it raises `NotEnoughColors`. -/
theorem C2_counterexample :
    get_palette_legacy sampleImg [defaultColor] = .error .notEnoughColors ∧
    get_palette_legacy sampleImg [defaultColor] ≠ .ok sampleImg := by
  have h1 : get_palette_legacy sampleImg [defaultColor]
      = .error .notEnoughColors := rfl
  exact ⟨h1, fun h => by rw [h1] at h; exact Except.noConfusion h⟩

/-- C2 amended: for a palette of length 0 or 1, the modern composer
(`get_palette`) falls back and returns the original image, but the legacy
composer (`get_palette_legacy`) raises `NotEnoughColors` (as it does for
every palette shorter than 10 colors) instead of returning the image. -/
theorem C2_amended (image : Img) (colors : List Color) (border : ℚ)
    (h1 : colors.length ≤ 1) :
    get_palette image (.ok colors) border = .ok image ∧
    get_palette_legacy image colors = .error .notEnoughColors := by
  constructor
  · simp only [get_palette]
    rw [clean_colors_short (by omega)]
  · simp only [get_palette_legacy]
    rw [if_pos (by omega)]

/-- C2 witness: the amended theorem applied to a one-color extraction. -/
theorem C2_witness :
    ([defaultColor] : List Color).length ≤ 1 ∧
    (get_palette sampleImg (.ok [defaultColor]) (3 / 200) = .ok sampleImg ∧
      get_palette_legacy sampleImg [defaultColor] = .error .notEnoughColors) :=
  ⟨by decide, C2_amended sampleImg [defaultColor] (3 / 200) (by decide)⟩

/-- C8: on a non-empty candidate list, `get_most_diff` returns the pair of
a candidate and its hit count, where the hit count is the number of saved
colors whose red channel differs by more than 10, the candidate attains
the maximum hit count, and ties are broken by first occurrence (every
earlier candidate has a strictly smaller hit count). -/
theorem C8_most_diff (saved news : List Color) (hne : news ≠ []) :
    ∃ i : Nat, i < news.length ∧
      get_most_diff saved news
        = some (news.getD i defaultColor,
            redDiffHits saved (news.getD i defaultColor)) ∧
      (∀ j : Nat, j < news.length →
        redDiffHits saved (news.getD j defaultColor)
          ≤ redDiffHits saved (news.getD i defaultColor)) ∧
      (∀ j : Nat, j < i →
        redDiffHits saved (news.getD j defaultColor)
          < redDiffHits saved (news.getD i defaultColor)) := by
  induction news with
  | nil => exact absurd rfl hne
  | cons n rest ih =>
    by_cases hr : rest = []
    · subst hr
      refine ⟨0, by simp, rfl, ?_, ?_⟩
      · intro j hj
        have hj0 : j = 0 := by simpa using hj
        subst hj0
        exact le_refl _
      · intro j hj
        exact absurd hj (by omega)
    · obtain ⟨i, hi, hget, hmax, hstrict⟩ := ih hr
      have hstep : get_most_diff saved (n :: rest)
          = (insertDesc (n, redDiffHits saved n)
              (sortDescHits (rest.map
                (fun new => (new, redDiffHits saved new))))).head? := rfl
      have hrest : (sortDescHits (rest.map
            (fun new => (new, redDiffHits saved new)))).head?
          = get_most_diff saved rest := rfl
      have hif : get_most_diff saved (n :: rest)
          = some (if redDiffHits saved n
                < redDiffHits saved (rest.getD i defaultColor)
              then (rest.getD i defaultColor,
                redDiffHits saved (rest.getD i defaultColor))
              else (n, redDiffHits saved n)) := by
        rw [hstep, insertDesc_head, hrest, hget]
      by_cases hcmp : redDiffHits saved n
          < redDiffHits saved (rest.getD i defaultColor)
      · refine ⟨i + 1, by simpa using hi, ?_, ?_, ?_⟩
        · rw [hif, if_pos hcmp, List.getD_cons_succ]
        · intro j hj
          cases j with
          | zero => simpa using le_of_lt hcmp
          | succ j => simpa using hmax j (by simpa using hj)
        · intro j hj
          cases j with
          | zero => simpa using hcmp
          | succ j => simpa using hstrict j (by omega)
      · refine ⟨0, by simp, ?_, ?_, ?_⟩
        · rw [hif, if_neg hcmp, List.getD_cons_zero]
        · intro j hj
          cases j with
          | zero => simp
          | succ j =>
            have hle := hmax j (by simpa using hj)
            simp only [List.getD_cons_succ, List.getD_cons_zero]
            exact le_trans hle (not_lt.mp hcmp)
        · intro j hj
          exact absurd hj (by omega)

/-- C8 witness: with one saved dark color, the red candidate (differing by
100 in the red channel) wins over the dark candidate. -/
theorem C8_witness :
    ([⟨0, 0, 0⟩, ⟨100, 0, 0⟩] : List Color) ≠ [] ∧
    ∃ i : Nat, i < ([⟨0, 0, 0⟩, ⟨100, 0, 0⟩] : List Color).length ∧
      get_most_diff [⟨0, 0, 0⟩] [⟨0, 0, 0⟩, ⟨100, 0, 0⟩]
        = some (([⟨0, 0, 0⟩, ⟨100, 0, 0⟩] : List Color).getD i defaultColor,
            redDiffHits [⟨0, 0, 0⟩]
              (([⟨0, 0, 0⟩, ⟨100, 0, 0⟩] : List Color).getD i defaultColor)) ∧
      (∀ j : Nat, j < ([⟨0, 0, 0⟩, ⟨100, 0, 0⟩] : List Color).length →
        redDiffHits [⟨0, 0, 0⟩]
            (([⟨0, 0, 0⟩, ⟨100, 0, 0⟩] : List Color).getD j defaultColor)
          ≤ redDiffHits [⟨0, 0, 0⟩]
              (([⟨0, 0, 0⟩, ⟨100, 0, 0⟩] : List Color).getD i defaultColor)) ∧
      (∀ j : Nat, j < i →
        redDiffHits [⟨0, 0, 0⟩]
            (([⟨0, 0, 0⟩, ⟨100, 0, 0⟩] : List Color).getD j defaultColor)
          < redDiffHits [⟨0, 0, 0⟩]
              (([⟨0, 0, 0⟩, ⟨100, 0, 0⟩] : List Color).getD i defaultColor)) :=
  ⟨by decide, C8_most_diff [⟨0, 0, 0⟩] [⟨0, 0, 0⟩, ⟨100, 0, 0⟩] (by decide)⟩

unseal Rat.mul Rat.inv Rat.add Rat.sub in
/-- C9 counterexample: for an 11-pixel-wide image, every slice has width
`int(11 / 10) = 1` and the ten slices cover only columns 0 to 9; column 10
belongs to no slice, so the slices do not partition the image width. -/
theorem C9_counterexample :
    (0 : Int) ≤ 10 ∧ (10 : Int) < 11 ∧
    ∀ i : Nat, i < 10 →
      ¬((alt_slice_box 11 5 i).1 ≤ 10 ∧
        (10 : Int) < (alt_slice_box 11 5 i).2.2.1) := by decide

/-- C9 amended: the ten crop boxes of `get_colors_alt` have equal width
`int(width / 10)` and tile the columns `[0, 10 * int(width / 10))` without
gap or overlap (each such column lies in exactly one slice); columns at or
beyond `10 * int(width / 10)` — which exist whenever the width is not a
multiple of 10 — belong to no slice. -/
theorem C9_amended (w h : Int) (hw : 0 ≤ w) :
    (∀ i : Nat, i < 10 →
      (alt_slice_box w h i).2.2.1 - (alt_slice_box w h i).1
        = alt_slice_width w) ∧
    (∀ col : Int, 0 ≤ col → col < 10 * alt_slice_width w →
      ∃! i : Nat, i < 10 ∧
        (alt_slice_box w h i).1 ≤ col ∧ col < (alt_slice_box w h i).2.2.1) := by
  have hs0 : 0 ≤ alt_slice_width w := by
    apply pyInt_nonneg
    apply div_nonneg
    · exact_mod_cast hw
    · norm_num
  constructor
  · intro i hi
    simp only [alt_slice_box]
    ring
  · intro col hc0 hc1
    have hspos : 0 < alt_slice_width w := by
      rcases lt_or_eq_of_le hs0 with hlt | heq
      · exact hlt
      · rw [← heq] at hc1
        omega
    have hdivnn : 0 ≤ col / alt_slice_width w :=
      Int.ediv_nonneg hc0 (le_of_lt hspos)
    have h3 : ((col / alt_slice_width w).toNat : Int)
        = col / alt_slice_width w := Int.toNat_of_nonneg hdivnn
    have h1 : alt_slice_width w * (col / alt_slice_width w)
        + col % alt_slice_width w = col := Int.ediv_add_emod col _
    have h2 : 0 ≤ col % alt_slice_width w :=
      Int.emod_nonneg col (ne_of_gt hspos)
    have h4 : col % alt_slice_width w < alt_slice_width w :=
      Int.emod_lt_of_pos col hspos
    refine ⟨(col / alt_slice_width w).toNat, ⟨?_, ?_, ?_⟩, ?_⟩
    · have hlt : col / alt_slice_width w < 10 := by
        rw [Int.ediv_lt_iff_lt_mul hspos]
        linarith
      omega
    · simp only [alt_slice_box]
      rw [h3]
      nlinarith
    · simp only [alt_slice_box]
      rw [h3]
      nlinarith
    · rintro j ⟨hj10, hjl, hjr⟩
      simp only [alt_slice_box] at hjl hjr
      have e1 : alt_slice_width w * (j : Int)
          < alt_slice_width w * ((col / alt_slice_width w) + 1) := by
        nlinarith
      have e2 : (j : Int) < (col / alt_slice_width w) + 1 :=
        lt_of_mul_lt_mul_left e1 (le_of_lt hspos)
      have e3 : alt_slice_width w * (col / alt_slice_width w)
          < alt_slice_width w * ((j : Int) + 1) := by
        nlinarith
      have e4 : col / alt_slice_width w < (j : Int) + 1 :=
        lt_of_mul_lt_mul_left e3 (le_of_lt hspos)
      omega

/-- C9 witness: the amended theorem applied to a 20-pixel-wide image. -/
theorem C9_witness :
    (0 : Int) ≤ 20 ∧
    ((∀ i : Nat, i < 10 →
      (alt_slice_box 20 5 i).2.2.1 - (alt_slice_box 20 5 i).1
        = alt_slice_width 20) ∧
    (∀ col : Int, 0 ≤ col → col < 10 * alt_slice_width 20 →
      ∃! i : Nat, i < 10 ∧
        (alt_slice_box 20 5 i).1 ≤ col ∧ col < (alt_slice_box 20 5 i).2.2.1)) :=
  ⟨by decide, C9_amended 20 5 (by decide)⟩

theorem modernAttempt_ok_width {image : Img} {palette : List Color}
    {w div_palette b2 : Int} {bg out : Img}
    (h : modernAttempt image palette w div_palette b2 bg = .ok out) :
    out.width = image.width + b2 + b2 := by
  unfold modernAttempt at h
  split at h
  · exact absurd h (by simp)
  · split at h
    · exact absurd h (by simp)
    · next bordered heq =>
      cases h
      have hb := (expand_ok heq).1
      simpa [Img.paste] using hb

theorem get_palette_eq_of_clean {image : Img} {colors palette : List Color}
    {border : ℚ} (hclean : clean_colors colors 2 = some palette)
    (hne : palette.isEmpty = false) :
    get_palette image (.ok colors) border
      = match imageNew (modern_new_w image.width image.height border,
            modern_border image.width image.height border) white with
        | .error e => .error e
        | .ok bg =>
          tryExceptTypeError image (modernAttempt image palette image.width
            (modern_div image.width image.height border palette.length)
            (modern_border image.width image.height border) bg) := by
  simp only [get_palette, hclean]
  rw [if_neg (by simp [hne])]

unseal Rat.mul Rat.inv Rat.add Rat.sub in
/-- C1 counterexample: on a 300×100 image (aspect ratio 3 > 2.1) with six
dark extracted colors, the wide-image adjustment makes the border
`int(300*0.015) - int(3.0*4) = -8` negative; creating the strip background
then fails with a `ValueError` that is raised past the boundary of
`get_palette` (the background is created outside the `try`, and the `except`
clause only catches `TypeError`), so the original image is not returned. -/
theorem C1_counterexample :
    get_palette wideImg (.ok sixDark) (3 / 200) = .error .valueError := rfl

/-- C1 amended: `get_palette` returns the original image on any extraction
failure and on any `TypeError` during composition, and otherwise returns
either a fully composited image (width grown by twice the border) or
raises a `ValueError` (from strip-background or segment creation when the
computed border arithmetic goes negative); it never returns a partially
built image and never raises anything but `ValueError`. -/
theorem C1_amended (image : Img) (colorsResult : Except PErr (List Color))
    (border : ℚ) :
    get_palette image colorsResult border = .ok image ∨
    get_palette image colorsResult border = .error .valueError ∨
    ∃ out, get_palette image colorsResult border = .ok out ∧
      out.width = image.width
        + 2 * modern_border image.width image.height border := by
  cases colorsResult with
  | error e => exact Or.inl rfl
  | ok colors =>
    rcases hc : clean_colors colors 2 with - | palette
    · exact Or.inl (by simp [get_palette, hc])
    · by_cases hp : palette.isEmpty = true
      · exact Or.inl (by simp [get_palette, hc, hp])
      · have hne : palette.isEmpty = false := by simpa using hp
        rw [get_palette_eq_of_clean hc hne]
        rcases hbg : imageNew (modern_new_w image.width image.height border,
            modern_border image.width image.height border) white with e | bg
        · have hv := imageNew_error hbg
          subst hv
          right; left
          rfl
        · rcases hA : modernAttempt image palette image.width
              (modern_div image.width image.height border palette.length)
              (modern_border image.width image.height border) bg with e | out
          · have hv := modernAttempt_error hA
            subst hv
            right; left
            exact tryExceptTypeError_of_valueError hA
          · right; right
            refine ⟨out, ?_, ?_⟩
            · exact tryExceptTypeError_of_ok hA
            · rw [modernAttempt_ok_width hA]
              ring

unseal Rat.mul Rat.inv Rat.add Rat.sub in
/-- C6 counterexample: for a 100×50 image with default border fraction
0.015, the source truncates `int(100*0.015) = 1` and produces width 102,
while the rounding stated by the claim, `round(100*0.015) = round(1.5) = 2`, predicts 104. -/
theorem C6_counterexample :
    Except.map Img.width (get_palette sampleImg (.ok sixDark) (3 / 200))
      = .ok 102 ∧
    (102 : Int) ≠ 100 + 2 * roundNearest ((100 : ℚ) * (3 / 200)) := by
  constructor
  · rfl
  · decide

/-- C6 amended: whenever the modern composition succeeds, the output width
is `w + 2*int(w*b)` — truncation, not rounding — where the border
`int(w*b)` is first reduced by the wide-image adjustment when
`w/h > 2.1` (the hypotheses state the cleaner kept a nonempty palette and
the computed border and last-segment width are nonnegative, which is what
makes the composition succeed). -/
theorem C6_amended (image : Img) (colors palette : List Color) (border : ℚ)
    (hw : 1 ≤ image.width) (hh : 1 ≤ image.height)
    (hclean : clean_colors colors 2 = some palette)
    (hne : palette.isEmpty = false)
    (hb2 : 0 ≤ modern_border image.width image.height border)
    (hlast : 0 ≤ segment_width palette.length image.width
      (modern_div image.width image.height border palette.length)
      (palette.length - 1)) :
    ∃ out, get_palette image (.ok colors) border = .ok out ∧
      out.width = image.width
        + 2 * modern_border image.width image.height border := by
  rw [get_palette_eq_of_clean hclean hne]
  have hnw : 0 ≤ modern_new_w image.width image.height border := by
    unfold modern_new_w
    omega
  obtain ⟨bg, hbg, -, -⟩ := imageNew_ok_of_nonneg
    (modern_new_w image.width image.height border,
      modern_border image.width image.height border) white hnw hb2
  rw [hbg]
  have hdpnn : 0 ≤ modern_div image.width image.height border palette.length := by
    unfold modern_div
    apply pyInt_nonneg
    apply div_nonneg
    · exact_mod_cast hnw
    · exact_mod_cast Nat.zero_le _
  have hseg : ∀ c ∈ List.range palette.length,
      0 ≤ segment_width palette.length image.width
        (modern_div image.width image.height border palette.length) c := by
    intro c _
    by_cases hc0 : c = 0
    · unfold segment_width
      rw [if_pos hc0]
      exact hdpnn
    · by_cases hcl : c = palette.length - 1
      · rw [hcl]
        exact hlast
      · unfold segment_width
        rw [if_neg hc0, if_neg hcl]
        exact hdpnn
  obtain ⟨strip, hstrip⟩ := stripLoop_ok hb2 (List.range palette.length) bg 0 hseg
  obtain ⟨bordered, hbord, hbw, -⟩ := expand_ok_of_nonneg
    image (modern_border image.width image.height border,
      modern_border image.width image.height border,
      modern_border image.width image.height border, 0)
    (palette.getD 0 defaultColor)
    (show 0 ≤ image.width + modern_border image.width image.height border
        + modern_border image.width image.height border by omega)
    (show 0 ≤ image.height + modern_border image.width image.height border
        + 0 by omega)
  have hAok : modernAttempt image palette image.width
      (modern_div image.width image.height border palette.length)
      (modern_border image.width image.height border) bg
      = .ok (bordered.paste strip (0, image.height)) := by
    unfold modernAttempt
    rw [hstrip, hbord]
  refine ⟨bordered.paste strip (0, image.height), ?_, ?_⟩
  · exact tryExceptTypeError_of_ok hAok
  · show bordered.width = _
    rw [hbw]
    show image.width + modern_border image.width image.height border
        + modern_border image.width image.height border = _
    ring

unseal Rat.mul Rat.inv Rat.add Rat.sub in
/-- C6 witness: the amended theorem at a 100×50 image with six dark colors
and the default border fraction (border 1, output width 102). -/
theorem C6_witness :
    clean_colors sixDark 2 = some sixDark ∧
    ∃ out, get_palette sampleImg (.ok sixDark) (3 / 200) = .ok out ∧
      out.width = sampleImg.width
        + 2 * modern_border sampleImg.width sampleImg.height (3 / 200) :=
  ⟨by decide, C6_amended sampleImg sixDark sixDark (3 / 200) (by decide)
    (by decide) (by decide) (by decide) (by decide) (by decide)⟩

unseal Rat.mul Rat.inv Rat.add Rat.sub in
/-- C5 counterexample: at width 1000, default border and a 10-color
palette, the border is 15, the new width is 1030 and the nominal segment
width is 103, but the tiled segment widths sum to
`10*103 + int((1000 - 103*9)/2) = 1066 ≠ 1030`: the strip does not span
the new width exactly (here it overflows and is cropped by the paste). -/
theorem C5_counterexample :
    ((List.range 10).map (segment_width 10 1000
        (modern_div 1000 500 (3 / 200) 10))).sum
      ≠ modern_new_w 1000 500 (3 / 200) := by decide

/-- C5 amended: for every palette length from 2 upward, every segment
except the last has the nominal width `div_palette` (including the first)
and the last has `div_palette + int((w - div_palette*(n-1))/2)`, so the
widths sum to `n*div_palette` plus that leftover — a value that in general
differs from the computed new width. -/
theorem C5_amended (n : Nat) (w div_palette : Int) (h2 : 2 ≤ n) :
    ((List.range n).map (segment_width n w div_palette)).sum
      = (n : Int) * div_palette
        + pyInt (((w : ℚ) - (div_palette : ℚ) * ((n - 1 : Nat) : ℚ)) / 2) := by
  obtain ⟨k, rfl⟩ : ∃ k, n = k + 2 := ⟨n - 2, by omega⟩
  rw [List.range_succ, List.map_append, List.sum_append]
  have hconst : ∀ x ∈ (List.range (k + 1)).map (segment_width (k + 2) w div_palette),
      x = div_palette := by
    intro x hx
    rw [List.mem_map] at hx
    obtain ⟨i, hi, rfl⟩ := hx
    rw [List.mem_range] at hi
    unfold segment_width
    split
    · rfl
    · split
      · next hL => exact absurd hL (by omega)
      · rfl
  have hsum : ((List.range (k + 1)).map (segment_width (k + 2) w div_palette)).sum
      = ((k : Int) + 1) * div_palette := by
    rw [List.sum_eq_card_nsmul _ div_palette hconst, List.length_map,
      List.length_range, nsmul_eq_mul]
    push_cast
    ring
  have hL : segment_width (k + 2) w div_palette (k + 1)
      = div_palette
        + pyInt (((w : ℚ) - (div_palette : ℚ) * ((k + 2 - 1 : Nat) : ℚ)) / 2) := by
    unfold segment_width
    rw [if_neg (by omega), if_pos (by omega : k + 1 = k + 2 - 1)]
  rw [hsum]
  simp only [List.map_cons, List.map_nil, List.sum_cons, List.sum_nil, hL]
  push_cast
  ring

unseal Rat.mul Rat.inv Rat.add Rat.sub in
/-- C5 witness: the amended sum identity at the counterexample instance. -/
theorem C5_witness :
    2 ≤ 10 ∧
    ((List.range 10).map (segment_width 10 1000
        (modern_div 1000 500 (3 / 200) 10))).sum
      = (10 : Int) * modern_div 1000 500 (3 / 200) 10
        + pyInt (((1000 : ℚ)
            - ((modern_div 1000 500 (3 / 200) 10 : Int) : ℚ)
              * ((10 - 1 : Nat) : ℚ)) / 2) :=
  ⟨by norm_num, C5_amended 10 1000 (modern_div 1000 500 (3 / 200) 10) (by norm_num)⟩

end Kinobot
